import Mathlib

/-!
Shallow embedding of `src/rehydration/rehydrate.py` (the batch rehydrator).

Identifiers are modelled as `String` (the script reads one id per line and
treats it as text).  A rehydrated tweet is modelled by the only two aspects
the script uses: the value of its `id_str` field and its serialized form
`json.dumps(tweet, separators=(',',':'))`, which we keep abstract as a string
field `dumped`.

The Twitter API is modelled in two layers, matching the script:
* `requestLoop` models the rate-limit retry loop inside `rehydrateTweets`
  (lines 85-106): the constructed URL is computed once, each rate-limit
  response records a sleep of `int(resetTime) - time.time() + 1` seconds and
  the same URL is resubmitted; the clock values are taken as integers.
* at the driver level each call to `rehydrateTweets` either returns a final
  list of tweets (after any number of internal rate-limit retries) or raises
  a `TwythonError`/`TwythonAuthError` that the driver catches and logs; this
  is the `ChunkOutcome` oracle.

File writes are modelled as lists of the exact strings passed to
`outFd.write` / `missingFd.write`, in order.
-/

namespace Rehydrate

/-- The two aspects of a rehydrated tweet object that the script uses:
`tweet['id_str']` and `json.dumps(tweet, separators=(',',':'))`. -/
structure Tweet where
  id_str : String
  dumped : String
deriving Repr, DecidableEq

/-- Lines 112-113: `retrievedTweets.append(tweet['id_str'])` for each returned
tweet. -/
def retrievedIds (tweets : List Tweet) : List String :=
  tweets.map Tweet.id_str

/-- Lines 110-117 of `rehydrateTweets`: only when the number of returned
tweets differs from the number of requested ids, the set difference
`set(tweetIdList).difference(set(retrievedTweets))` is computed and one line
`Missing tweet for id: <id>\n` is written per missing id.  Python set
iteration order is unspecified; the model fixes the order of first occurrence
in the chunk (`dedup`), which determines the same multiset of lines. -/
def missingWrites (tweetIdList : List String) (tweets : List Tweet) : List String :=
  if tweetIdList.length ≠ tweets.length then
    (tweetIdList.dedup.filter fun i => decide (i ∉ retrievedIds tweets)).map
      fun i => "Missing tweet for id: " ++ i ++ "\n"
  else []

/-- Lines 121-128 of `rehydrateTweets`.  Note the source says
`if ( firstLine ): firstLine = True` — the reassignment leaves the flag
unchanged (line 123), so the branch taken is the same for every tweet of the
chunk: with the flag set, no separator is ever written inside the chunk. -/
def outputWrites (firstLine : Bool) : List Tweet → List String
  | [] => []
  | t :: ts =>
    (if firstLine then [t.dumped] else [",\n", t.dumped]) ++ outputWrites firstLine ts

/-- The observable effect of one successful `rehydrateTweets` call
(lines 68-136): the strings written to the missing sink, the strings written
to the output sink, and the returned tweet list.  An empty chunk returns
immediately with no writes (lines 70-71). -/
def rehydrateTweets (tweetIdList : List String) (firstLine : Bool)
    (rehydratedTweets : List Tweet) : List String × List String × List Tweet :=
  if tweetIdList.length = 0 then ([], [], [])
  else
    (missingWrites tweetIdList rehydratedTweets,
     outputWrites firstLine rehydratedTweets,
     rehydratedTweets)

/-- One rate-limit response: the `x-rate-limit-reset` header value and the
value of `time.time()` at that moment, both as integer seconds. -/
structure RateLimitEvent where
  resetTime : Int
  now : Int
deriving Repr, DecidableEq

/-- Lines 98-103: `delta = int(resetTime) - time.time(); time.sleep(delta + 1)`. -/
def sleepDuration (resetTime now : Int) : Int :=
  resetTime - now + 1

/-- Lines 75-77: the lookup URL, built once per chunk from the comma-joined
id list, before the retry loop. -/
def constructUrl (tweetIdList : List String) : String :=
  "https://api.twitter.com/1.1/statuses/lookup.json?id=" ++
    String.intercalate "," tweetIdList

/-- Lines 85-106, the `while not requestProcessed` loop, driven by the list
of rate-limit responses the server produces before the final success.
Returns (URLs submitted in order, sleeps performed in order, final result).
The URL argument never changes across retries, exactly as in the source,
where `constructedUrl` is computed before the loop. -/
def requestLoop (constructedUrl : String) :
    List RateLimitEvent → List Tweet → List String × List Int × List Tweet
  | [], tweets => ([constructedUrl], [], tweets)
  | e :: es, tweets =>
    let rest := requestLoop constructedUrl es tweets
    (constructedUrl :: rest.1, sleepDuration e.resetTime e.now :: rest.2.1, rest.2.2)

/-- Outcome of one driver-level call to `rehydrateTweets`: either the final
tweet list (rate limiting having been absorbed by the retry loop), or a
`TwythonError`/`TwythonAuthError` caught at lines 319-322 / 337-340. -/
inductive ChunkOutcome where
  | ok (tweets : List Tweet)
  | err
deriving Repr, DecidableEq

/-- A lookup capability that never raises a chunk-level error. -/
def okApi (lookup : List String → List Tweet) : List String → ChunkOutcome :=
  fun c => ChunkOutcome.ok (lookup c)

/-- Module-level mutable state of the driver (lines 269-344), plus a ghost
trace `chunksSubmitted` recording the argument of every `rehydrateTweets`
call that reached the API. -/
structure RunState where
  tweetIdList : List String
  linesInCurrentChunk : Nat
  numChunksProcessed : Nat
  firstLine : Bool
  outWrites : List String
  missingWrites : List String
  chunksSubmitted : List (List String)
deriving Repr, DecidableEq

/-- Lines 303-326, one iteration of `for line in inFd`.  On success the
counters are reset and the chunk trace extended; on a caught error
(lines 319-322) the handler only logs — the resets at lines 315-316 sit
inside the `try` and are skipped, so `tweetIdList` and
`linesInCurrentChunk` keep their values. -/
def processLine (chunkSize : Nat) (api : List String → ChunkOutcome)
    (st : RunState) (line : String) : RunState :=
  let st1 := { st with
    linesInCurrentChunk := st.linesInCurrentChunk + 1,
    tweetIdList := st.tweetIdList ++ [line] }
  if st1.linesInCurrentChunk = chunkSize then
    match api st1.tweetIdList with
    | ChunkOutcome.ok tweets =>
      let r := rehydrateTweets st1.tweetIdList st1.firstLine tweets
      { st1 with
        firstLine := if r.2.2.length ≠ 0 then false else st1.firstLine,
        tweetIdList := [],
        linesInCurrentChunk := 0,
        numChunksProcessed := st1.numChunksProcessed + 1,
        outWrites := st1.outWrites ++ r.2.1,
        missingWrites := st1.missingWrites ++ r.1,
        chunksSubmitted := st1.chunksSubmitted ++ [st1.tweetIdList] }
    | ChunkOutcome.err =>
      { st1 with chunksSubmitted := st1.chunksSubmitted ++ [st1.tweetIdList] }
  else st1

/-- The whole `for line in inFd` loop. -/
def runLoop (chunkSize : Nat) (api : List String → ChunkOutcome)
    (lines : List String) (st : RunState) : RunState :=
  lines.foldl (processLine chunkSize api) st

/-- Lines 330-344: the trailing block for a leftover chunk.  Note
`numChunksProcessed += 1` (line 331) happens before the `try`, so it is
counted even when the call errors. -/
def finishRun (api : List String → ChunkOutcome) (st : RunState) : RunState :=
  if st.tweetIdList.length ≠ 0 then
    let st1 := { st with numChunksProcessed := st.numChunksProcessed + 1 }
    match api st1.tweetIdList with
    | ChunkOutcome.ok tweets =>
      let r := rehydrateTweets st1.tweetIdList st1.firstLine tweets
      { st1 with
        firstLine := if r.2.2.length ≠ 0 then false else st1.firstLine,
        outWrites := st1.outWrites ++ r.2.1,
        missingWrites := st1.missingWrites ++ r.1,
        chunksSubmitted := st1.chunksSubmitted ++ [st1.tweetIdList] }
    | ChunkOutcome.err =>
      { st1 with chunksSubmitted := st1.chunksSubmitted ++ [st1.tweetIdList] }
  else st

/-- State at line 303: empty chunk, counters zero, the given first-line flag,
and the opening string already written to the output sink. -/
def initState (firstLine : Bool) (opening : String) : RunState :=
  { tweetIdList := []
    linesInCurrentChunk := 0
    numChunksProcessed := 0
    firstLine := firstLine
    outWrites := [opening]
    missingWrites := []
    chunksSubmitted := [] }

/-- Lines 296-348 given an initial flag, an opening write and the lines that
remain after any restart skip: run the loop, the leftover block, then write
the closing `"\n]\n"` (line 348). -/
def runFrom (chunkSize : Nat) (api : List String → ChunkOutcome)
    (firstLine : Bool) (opening : String) (lines : List String) : RunState :=
  let st := finishRun api (runLoop chunkSize api lines (initState firstLine opening))
  { st with outWrites := st.outWrites ++ ["\n]\n"] }

/-- Lines 282-291: `firstLine` starts true and is cleared when a restart line
other than 1 is given. -/
def initFirstLine (restartAtLine : Option Nat) : Bool :=
  match restartAtLine with
  | none => true
  | some k => if k ≠ 1 then false else true

/-- Lines 290-291: the restart skip loop reads and discards `k - 1` lines
(or the whole input, if shorter).  The model takes `k ≥ 1`, the domain the
spec describes. -/
def effectiveLines (restartAtLine : Option Nat) (lines : List String) : List String :=
  match restartAtLine with
  | none => lines
  | some k => lines.drop (k - 1)

/-- Lines 296-299: a continuation comma is written instead of the opening
bracket exactly when the output file already existed AND a restart argument
was given (its value is not inspected here). -/
def openingWrite (appendExistingFile : Bool) (restartAtLine : Option Nat) : String :=
  if appendExistingFile && restartAtLine.isSome then ",\n" else "[\n"

/-- A complete run of the driver (lines 269-348). `inputLines` are the
stripped lines of the id file. -/
def fullRun (chunkSize : Nat) (api : List String → ChunkOutcome)
    (restartAtLine : Option Nat) (appendExistingFile : Bool)
    (inputLines : List String) : RunState :=
  runFrom chunkSize api (initFirstLine restartAtLine)
    (openingWrite appendExistingFile restartAtLine)
    (effectiveLines restartAtLine inputLines)

/-- The concatenation of everything written to the output sink. -/
def outputText (st : RunState) : String :=
  String.join st.outWrites

/-- Lines 181-183: an out-of-bounds `--chunk-size` is replaced by 100. -/
def clampChunkSize (n : Int) : Int :=
  if n > 100 ∨ n < 1 then 100 else n

/-- Modelled from the spec's words (§4.1 drive full run, §8): the input
identifiers partitioned in order into consecutive chunks of size `c`, the
last possibly smaller.  This is the specification-side description that the
driver's submission trace is compared against. -/
def specChunks (c : Nat) : List String → List (List String)
  | [] => []
  | x :: xs => (x :: xs).take c :: specChunks c (xs.drop (c - 1))
termination_by l => l.length
decreasing_by
  simp only [List.length_drop, List.length_cons]
  omega

/-! Concrete lookup capabilities used to evaluate the model at specific
inputs. -/

/-- A lookup capability that always succeeds with no results. -/
def apiTriv : List String → ChunkOutcome := fun _ => ChunkOutcome.ok []

/-- A concrete tweet with id 1. -/
def tA : Tweet := ⟨"1", "recordA"⟩

/-- A concrete tweet with id 2. -/
def tB : Tweet := ⟨"2", "recordB"⟩

/-- A capability returning both tweets for the chunk [1, 2] and nothing
otherwise. -/
def apiTwoTweets : List String → ChunkOutcome :=
  fun c => if c = ["1", "2"] then ChunkOutcome.ok [tA, tB] else ChunkOutcome.ok []

/-- A capability that raises a chunk-level error on the chunk [1] and
returns no results otherwise. -/
def apiFailOn1 : List String → ChunkOutcome :=
  fun c => if c = ["1"] then ChunkOutcome.err else ChunkOutcome.ok []

/-- A capability that raises a chunk-level error on any chunk of exactly two
ids and returns no results otherwise. -/
def apiFailOnPairs : List String → ChunkOutcome :=
  fun c => if c.length = 2 then ChunkOutcome.err else ChunkOutcome.ok []

/-- A lookup function returning no tweets, for exercising error-free runs. -/
def lookupNone : List String → List Tweet := fun _ => []

end Rehydrate

namespace Rehydrate

/-- Evaluation of claim C2 on the code: with the first-line flag set, the
output loop writes every record of the chunk with no separator at all — the
reassignment at line 123 leaves the flag true for the whole chunk, so the
suppression is not limited to the very first record of the run. -/
theorem c2_first_chunk_unseparated :
    ∀ ts : List Tweet, outputWrites true ts = ts.map Tweet.dumped := by
  intro ts
  induction ts with
  | nil => rfl
  | cons t ts ih => simp [outputWrites, ih]

/-- Claim C10: when the returned count equals the submitted count, no missing
record is written, whatever the identifiers are. -/
theorem c10_missing_check_skipped (chunk : List String) (tweets : List Tweet)
    (h : chunk.length = tweets.length) : missingWrites chunk tweets = [] := by
  simp [missingWrites, h]

/-- Witness for C10 at a concrete input where the identifier sets differ
(duplicate id in the chunk, a foreign id among the results). -/
theorem c10_missing_check_skipped_witness :
    ((["1", "1"] : List String).length = ([⟨"1", "a"⟩, ⟨"2", "b"⟩] : List Tweet).length ∧
      missingWrites ["1", "1"] [⟨"1", "a"⟩, ⟨"2", "b"⟩] = []) ∧
    "2" ∈ retrievedIds [⟨"1", "a"⟩, ⟨"2", "b"⟩] ∧ "2" ∉ (["1", "1"] : List String) :=
  ⟨⟨rfl, c10_missing_check_skipped ["1", "1"] [⟨"1", "a"⟩, ⟨"2", "b"⟩] rfl⟩, by decide, by decide⟩

/-- Counterexample to claim C1 as stated: a completed chunk with a duplicate
identifier.  The chunk [1, 1] yields one result record and no missing
record, so 1 + 0 differs from the chunk size 2. -/
theorem c1_accounting_cex :
    ¬ ((rehydrateTweets ["1", "1"] true [⟨"1", "b"⟩]).1.length
        + (rehydrateTweets ["1", "1"] true [⟨"1", "b"⟩]).2.2.length
        = (["1", "1"] : List String).length) := by decide

/-- Helper: filtering a list by a predicate and by its negation splits its
length. -/
theorem length_filter_split (p : String → Bool) :
    ∀ l : List String, (l.filter fun a => !(p a)).length + (l.filter p).length = l.length := by
  intro l
  induction l with
  | nil => rfl
  | cons x xs ih =>
    by_cases hx : p x = true <;>
      simp [List.filter_cons, hx] <;> omega

/-- Claim C1, amended: accounting holds for chunks of pairwise-distinct
identifiers whose results carry pairwise-distinct identifiers drawn from the
chunk. -/
theorem c1_accounting_amended (chunk : List String) (tweets : List Tweet)
    (hchunk : chunk.Nodup) (hret : (retrievedIds tweets).Nodup)
    (hsub : ∀ i ∈ retrievedIds tweets, i ∈ chunk) :
    (missingWrites chunk tweets).length + tweets.length = chunk.length := by
  by_cases h : chunk.length = tweets.length
  · simp [missingWrites, h]
  · have hdedup : chunk.dedup = chunk := List.dedup_eq_self.mpr hchunk
    have hperm : (chunk.filter fun i => decide (i ∈ retrievedIds tweets)).Perm
        (retrievedIds tweets) := by
      refine (List.perm_ext_iff_of_nodup (hchunk.filter _) hret).mpr ?_
      intro a
      simp only [List.mem_filter, decide_eq_true_eq]
      exact ⟨fun hx => hx.2, fun hx => ⟨hsub a hx, hx⟩⟩
    have hlen2 : (chunk.filter fun i => decide (i ∈ retrievedIds tweets)).length
        = tweets.length := by
      rw [hperm.length_eq]
      simp [retrievedIds]
    have hsplit := length_filter_split (fun i => decide (i ∈ retrievedIds tweets)) chunk
    have hneg : (chunk.filter fun i => !(decide (i ∈ retrievedIds tweets))).length
        = (chunk.filter fun i => decide (i ∉ retrievedIds tweets)).length := by
      congr 1
      apply List.filter_congr
      intro a _
      simp
    rw [missingWrites, if_pos h, hdedup, List.length_map]
    omega

/-- Witness for the amended C1 at a concrete input: chunk [1, 2], one result
with id 1, one missing record. -/
theorem c1_accounting_amended_witness :
    (missingWrites ["1", "2"] [⟨"1", "b"⟩]).length + ([⟨"1", "b"⟩] : List Tweet).length
      = (["1", "2"] : List String).length :=
  c1_accounting_amended ["1", "2"] [⟨"1", "b"⟩] (by decide) (by decide) (by decide)

/-- Counterexample to claim C8 as stated: with reset timestamp 0 and clock 2
the computed sleep duration is negative, so the claimed non-negativity fails. -/
theorem c8_rate_limit_cex :
    (requestLoop (constructUrl ["1"]) [⟨0, 2⟩] []).2.1 = [-1] ∧
    ¬ (0 ≤ sleepDuration 0 2) := by
  constructor
  · rfl
  · decide

/-- Helper: the retry loop resubmits the same URL on every attempt, records
one sleep of duration `resetTime - now + 1` per rate-limit response, and
finally returns the successful response, for any number of retries. -/
theorem requestLoop_trace (url : String) (tweets : List Tweet) :
    ∀ events : List RateLimitEvent,
      (requestLoop url events tweets).1 = List.replicate (events.length + 1) url ∧
      (requestLoop url events tweets).2.1
        = events.map (fun e => sleepDuration e.resetTime e.now) ∧
      (requestLoop url events tweets).2.2 = tweets := by
  intro events
  induction events with
  | nil => exact ⟨rfl, rfl, rfl⟩
  | cons e es ih =>
    refine ⟨?_, ?_, ?_⟩
    · simp [requestLoop, ih.1, List.replicate_succ]
    · simp [requestLoop, ih.2.1]
    · simp [requestLoop, ih.2.2]

/-- Claim C8, amended: on rate limiting the sleep duration is
`resetTime - now + 1`, the very same chunk URL is resubmitted every time with
no retry bound, and the duration is non-negative whenever the reset
timestamp is no more than one second in the past. -/
theorem c8_rate_limit_amended (chunk : List String) (events : List RateLimitEvent)
    (tweets : List Tweet) :
    (requestLoop (constructUrl chunk) events tweets).1
      = List.replicate (events.length + 1) (constructUrl chunk) ∧
    (requestLoop (constructUrl chunk) events tweets).2.1
      = events.map (fun e => sleepDuration e.resetTime e.now) ∧
    (requestLoop (constructUrl chunk) events tweets).2.2 = tweets ∧
    ∀ e ∈ events, e.now ≤ e.resetTime + 1 → 0 ≤ sleepDuration e.resetTime e.now := by
  obtain ⟨h1, h2, h3⟩ := requestLoop_trace (constructUrl chunk) tweets events
  refine ⟨h1, h2, h3, ?_⟩
  intro e _ hcond
  simp only [sleepDuration]
  omega

/-- Witness for the amended C8 at a concrete input: one rate-limit response
with reset 10 at clock 5, then success. -/
theorem c8_rate_limit_amended_witness :
    (requestLoop (constructUrl ["7"]) [⟨10, 5⟩] [⟨"7", "r"⟩]).1
      = List.replicate 2 (constructUrl ["7"]) ∧
    (requestLoop (constructUrl ["7"]) [⟨10, 5⟩] [⟨"7", "r"⟩]).2.1
      = [sleepDuration 10 5] ∧
    (requestLoop (constructUrl ["7"]) [⟨10, 5⟩] [⟨"7", "r"⟩]).2.2 = [⟨"7", "r"⟩] ∧
    0 ≤ sleepDuration 10 5 := by
  obtain ⟨h1, h2, h3, h4⟩ := c8_rate_limit_amended ["7"] [⟨10, 5⟩] [⟨"7", "r"⟩]
  exact ⟨h1, h2, h3, h4 ⟨10, 5⟩ (by decide) (by decide)⟩


/-- Helper: one loop iteration only appends to the output sink. -/
theorem processLine_outWrites_append (cs : Nat) (api : List String → ChunkOutcome)
    (st : RunState) (l : String) :
    ∃ w, (processLine cs api st l).outWrites = st.outWrites ++ w := by
  unfold processLine
  dsimp only
  split
  · split
    · exact ⟨_, rfl⟩
    · exact ⟨[], by simp⟩
  · exact ⟨[], by simp⟩

/-- Helper: the whole input loop only appends to the output sink. -/
theorem runLoop_outWrites_append (cs : Nat) (api : List String → ChunkOutcome) :
    ∀ (ls : List String) (st : RunState),
      ∃ w, (runLoop cs api ls st).outWrites = st.outWrites ++ w := by
  intro ls
  induction ls with
  | nil => intro st; exact ⟨[], by simp [runLoop, List.foldl]⟩
  | cons l ls ih =>
    intro st
    obtain ⟨w1, h1⟩ := processLine_outWrites_append cs api st l
    obtain ⟨w2, h2⟩ := ih (processLine cs api st l)
    refine ⟨w1 ++ w2, ?_⟩
    have hstep : runLoop cs api (l :: ls) st = runLoop cs api ls (processLine cs api st l) := rfl
    rw [hstep, h2, h1, List.append_assoc]

/-- Helper: the leftover-chunk block only appends to the output sink. -/
theorem finishRun_outWrites_append (api : List String → ChunkOutcome) (st : RunState) :
    ∃ w, (finishRun api st).outWrites = st.outWrites ++ w := by
  unfold finishRun
  split
  · dsimp only
    split
    · exact ⟨_, rfl⟩
    · exact ⟨[], by simp⟩
  · exact ⟨[], by simp⟩

/-- Helper: the opening string passed to `runFrom` stays the first write of
the whole run. -/
theorem runFrom_head (cs : Nat) (api : List String → ChunkOutcome) (fl : Bool)
    (op : String) (ls : List String) :
    (runFrom cs api fl op ls).outWrites.head? = some op := by
  unfold runFrom
  dsimp only
  obtain ⟨w1, h1⟩ := runLoop_outWrites_append cs api ls (initState fl op)
  obtain ⟨w2, h2⟩ := finishRun_outWrites_append api (runLoop cs api ls (initState fl op))
  rw [h2, h1]
  rfl

/-- Counterexample to claim C6 as stated: restart at line 1 with an already
existing output file writes the continuation comma, not a fresh opening
bracket, so it does not behave like a fresh run. -/
theorem c6_restart1_cex :
    (fullRun 1 apiTriv (some 1) true ["1"]).outWrites.head? = some ",\n" ∧
    fullRun 1 apiTriv (some 1) true ["1"] ≠ fullRun 1 apiTriv none true ["1"] := by
  constructor
  · rfl
  · decide

/-- Claim C6, amended: restart at line 1 skips no lines and keeps the
first-line flag, and equals a fresh run when the output file does not
already exist; when it does exist, a continuation comma is written instead
of the opening bracket. -/
theorem c6_restart1_amended (cs : Nat) (api : List String → ChunkOutcome)
    (lines : List String) :
    fullRun cs api (some 1) false lines = fullRun cs api none false lines ∧
    (fullRun cs api (some 1) true lines).outWrites.head? = some ",\n" := by
  constructor
  · simp [fullRun, initFirstLine, openingWrite, effectiveLines]
  · have hvw : fullRun cs api (some 1) true lines = runFrom cs api true ",\n" lines := by
      simp [fullRun, initFirstLine, openingWrite, effectiveLines]
    rw [hvw]
    exact runFrom_head cs api true ",\n" lines

/-- Claim C7: restarting at line k > 1 against an existing output file with
enough input lines writes the continuation comma, skips exactly k - 1 input
lines, and runs with the first-line flag suppressed. -/
theorem c7_restart_k (k cs : Nat) (api : List String → ChunkOutcome)
    (lines : List String) (hk : 2 ≤ k) (hlen : k - 1 ≤ lines.length) :
    ∃ skipped rest, lines = skipped ++ rest ∧ skipped.length = k - 1 ∧
      fullRun cs api (some k) true lines = runFrom cs api false ",\n" rest ∧
      (fullRun cs api (some k) true lines).outWrites.head? = some ",\n" := by
  have hne : ¬ k = 1 := by omega
  have hrun : fullRun cs api (some k) true lines
      = runFrom cs api false ",\n" (lines.drop (k - 1)) := by
    simp [fullRun, initFirstLine, openingWrite, effectiveLines, hne]
  refine ⟨lines.take (k - 1), lines.drop (k - 1),
    (List.take_append_drop _ _).symm, ?_, hrun, ?_⟩
  · rw [List.length_take]
    omega
  · rw [hrun]
    exact runFrom_head cs api false ",\n" (lines.drop (k - 1))

/-- Witness for C7 at a concrete input: restart at line 2 of a two-line
input. -/
theorem c7_restart_k_witness :
    (2 ≤ 2 ∧ 2 - 1 ≤ (["a", "b"] : List String).length) ∧
    (∃ skipped rest, (["a", "b"] : List String) = skipped ++ rest ∧
      skipped.length = 2 - 1 ∧
      fullRun 1 apiTriv (some 2) true ["a", "b"] = runFrom 1 apiTriv false ",\n" rest ∧
      (fullRun 1 apiTriv (some 2) true ["a", "b"]).outWrites.head? = some ",\n") :=
  ⟨⟨by decide, by decide⟩,
    c7_restart_k 2 1 apiTriv ["a", "b"] (by decide) (by decide)⟩


/-- Helper: unfolding of `specChunks` on a non-empty list, in terms of
`take`/`drop`. -/
theorem specChunks_cons_eq (c : Nat) (hc : 1 ≤ c) (l : List String) (hl : l ≠ []) :
    specChunks c l = l.take c :: specChunks c (l.drop c) := by
  obtain ⟨c', rfl⟩ : ∃ c', c = c' + 1 := ⟨c - 1, by omega⟩
  cases l with
  | nil => exact absurd rfl hl
  | cons x xs => simp [specChunks, List.drop_succ_cons]

/-- Helper: a short non-empty list is a single chunk. -/
theorem specChunks_short (c : Nat) (hc : 1 ≤ c) (l : List String) (hne : l ≠ [])
    (hle : l.length ≤ c) : specChunks c l = [l] := by
  rw [specChunks_cons_eq c hc l hne, List.take_of_length_le hle,
    List.drop_eq_nil_of_le hle]
  simp [specChunks]

/-- Helper: dropping a positive count shortens a list enough for fuel
induction. -/
theorem drop_len_le (c n : Nat) (hc : 1 ≤ c) (x : String) (xs : List String)
    (h : (x :: xs).length ≤ n + 1) : ((x :: xs).drop c).length ≤ n := by
  simp only [List.length_drop, List.length_cons] at h ⊢
  omega

/-- Helper: the chunks concatenate back to the original list. -/
theorem specChunks_join_aux (c : Nat) (hc : 1 ≤ c) :
    ∀ (n : Nat) (l : List String), l.length ≤ n → (specChunks c l).flatten = l := by
  intro n
  induction n with
  | zero =>
    intro l h
    have hl : l = [] := List.length_eq_zero.mp (Nat.le_zero.mp h)
    simp [hl, specChunks]
  | succ n ih =>
    intro l h
    cases l with
    | nil => simp [specChunks]
    | cons x xs =>
      rw [specChunks_cons_eq c hc _ (by simp), List.flatten_cons,
        ih ((x :: xs).drop c) (drop_len_le c n hc x xs h)]
      exact List.take_append_drop c (x :: xs)

/-- Helper: the chunks concatenate back to the original list. -/
theorem specChunks_join (c : Nat) (hc : 1 ≤ c) (l : List String) :
    (specChunks c l).flatten = l :=
  specChunks_join_aux c hc l.length l le_rfl

/-- Helper: the number of chunks is the ceiling of length over chunk size. -/
theorem specChunks_length_aux (c : Nat) (hc : 1 ≤ c) :
    ∀ (n : Nat) (l : List String), l.length ≤ n →
      (specChunks c l).length = (l.length + c - 1) / c := by
  intro n
  induction n with
  | zero =>
    intro l h
    have hl : l = [] := List.length_eq_zero.mp (Nat.le_zero.mp h)
    subst hl
    simp only [specChunks, List.length_nil]
    rw [Nat.div_eq_of_lt (by omega)]
  | succ n ih =>
    intro l h
    cases l with
    | nil =>
      simp only [specChunks, List.length_nil]
      rw [Nat.div_eq_of_lt (by omega)]
    | cons x xs =>
      rw [specChunks_cons_eq c hc _ (by simp), List.length_cons,
        ih ((x :: xs).drop c) (drop_len_le c n hc x xs h),
        List.length_drop, List.length_cons]
      rcases le_or_lt c (xs.length + 1) with hle | hgt
      · have e1 : xs.length + 1 - c + c - 1 = xs.length + 1 - 1 := by omega
        have e2 : xs.length + 1 + c - 1 = (xs.length + 1 - 1) + c := by omega
        rw [e1, e2, Nat.add_div_right _ (by omega)]
      · have e1 : xs.length + 1 - c = 0 := by omega
        have e2 : xs.length + 1 + c - 1 = xs.length + c := by omega
        rw [e1, e2, Nat.add_div_right _ (by omega),
          Nat.div_eq_of_lt (by omega), Nat.div_eq_of_lt (by omega)]

/-- Helper: every chunk except possibly the last has exactly the configured
size. -/
theorem specChunks_dropLast_aux (c : Nat) (hc : 1 ≤ c) :
    ∀ (n : Nat) (l : List String), l.length ≤ n →
      ∀ ch ∈ (specChunks c l).dropLast, ch.length = c := by
  intro n
  induction n with
  | zero =>
    intro l h
    have hl : l = [] := List.length_eq_zero.mp (Nat.le_zero.mp h)
    subst hl
    simp [specChunks]
  | succ n ih =>
    intro l h
    cases l with
    | nil => simp [specChunks]
    | cons x xs =>
      rw [specChunks_cons_eq c hc _ (by simp)]
      cases hrest : specChunks c ((x :: xs).drop c) with
      | nil => simp
      | cons r rs =>
        intro ch hch
        have hdl : ((x :: xs).take c :: r :: rs).dropLast
            = (x :: xs).take c :: (r :: rs).dropLast := rfl
        rw [hdl] at hch
        rcases List.mem_cons.mp hch with h1 | h2
        · subst h1
          have hne2 : (x :: xs).drop c ≠ [] := by
            intro h0
            rw [h0] at hrest
            simp [specChunks] at hrest
          have hpos : ((x :: xs).drop c).length ≠ 0 :=
            fun h0 => hne2 (List.length_eq_zero.mp h0)
          rw [List.length_drop] at hpos
          rw [List.length_take]
          omega
        · refine ih ((x :: xs).drop c) (drop_len_le c n hc x xs h) ch ?_
          rw [hrest]
          exact h2

/-- Helper: every chunk is non-empty and no larger than the configured
size. -/
theorem specChunks_mem_aux (c : Nat) (hc : 1 ≤ c) :
    ∀ (n : Nat) (l : List String), l.length ≤ n →
      ∀ ch ∈ specChunks c l, ch.length ≤ c ∧ ch ≠ [] := by
  intro n
  induction n with
  | zero =>
    intro l h
    have hl : l = [] := List.length_eq_zero.mp (Nat.le_zero.mp h)
    subst hl
    simp [specChunks]
  | succ n ih =>
    intro l h
    cases l with
    | nil => simp [specChunks]
    | cons x xs =>
      rw [specChunks_cons_eq c hc _ (by simp)]
      intro ch hch
      rcases List.mem_cons.mp hch with h1 | h2
      · subst h1
        constructor
        · rw [List.length_take]
          omega
        · intro h0
          rcases List.take_eq_nil_iff.mp h0 with h3 | h3
          · omega
          · exact List.cons_ne_nil x xs h3
      · exact ih ((x :: xs).drop c) (drop_len_le c n hc x xs h) ch h2

/-- Helper: when the accumulated chunk fills up, the loop body submits it,
resets the accumulator and counter, and records the submission. -/
theorem processLine_full_proj (cs : Nat) (lookup : List String → List Tweet)
    (st : RunState) (l : String) (h : st.linesInCurrentChunk + 1 = cs) :
    (processLine cs (okApi lookup) st l).tweetIdList = [] ∧
    (processLine cs (okApi lookup) st l).linesInCurrentChunk = 0 ∧
    (processLine cs (okApi lookup) st l).chunksSubmitted
      = st.chunksSubmitted ++ [st.tweetIdList ++ [l]] := by
  unfold processLine okApi
  simp [h]

/-- Helper: while the accumulated chunk is not full, the loop body only
extends the accumulator. -/
theorem processLine_notfull (cs : Nat) (api : List String → ChunkOutcome)
    (st : RunState) (l : String) (h : ¬ st.linesInCurrentChunk + 1 = cs) :
    processLine cs api st l
      = { st with linesInCurrentChunk := st.linesInCurrentChunk + 1,
                  tweetIdList := st.tweetIdList ++ [l] } := by
  unfold processLine
  simp [h]

/-- Helper: the leftover block submits a non-empty leftover chunk. -/
theorem finishRun_ok_chunks (lookup : List String → List Tweet) (st : RunState)
    (h : st.tweetIdList ≠ []) :
    (finishRun (okApi lookup) st).chunksSubmitted
      = st.chunksSubmitted ++ [st.tweetIdList] := by
  unfold finishRun okApi
  simp [h, List.length_eq_zero]

/-- Helper: the leftover block does nothing on an empty accumulator. -/
theorem finishRun_nil (api : List String → ChunkOutcome) (st : RunState)
    (h : st.tweetIdList = []) : finishRun api st = st := by
  unfold finishRun
  simp [h]

/-- Helper invariant: in an error-free run, starting from a state whose
accumulator is consistent and below the chunk size, the loop plus the
leftover block submit exactly the consecutive chunks of the pending ids
followed by the remaining lines. -/
theorem chunks_invariant (cs : Nat) (lookup : List String → List Tweet) (hc : 1 ≤ cs) :
    ∀ (ls : List String) (st : RunState),
      st.linesInCurrentChunk = st.tweetIdList.length →
      st.tweetIdList.length < cs →
      (finishRun (okApi lookup) (runLoop cs (okApi lookup) ls st)).chunksSubmitted
        = st.chunksSubmitted ++ specChunks cs (st.tweetIdList ++ ls) := by
  intro ls
  induction ls with
  | nil =>
    intro st hlicc hlt
    have hrl : runLoop cs (okApi lookup) [] st = st := rfl
    rw [hrl, List.append_nil]
    by_cases hp : st.tweetIdList = []
    · rw [finishRun_nil _ _ hp, hp]
      simp [specChunks]
    · rw [finishRun_ok_chunks lookup st hp,
        specChunks_short cs hc _ hp (Nat.le_of_lt hlt)]
  | cons l ls ih =>
    intro st hlicc hlt
    have hstep : runLoop cs (okApi lookup) (l :: ls) st
        = runLoop cs (okApi lookup) ls (processLine cs (okApi lookup) st l) := rfl
    rw [hstep]
    by_cases hfull : st.linesInCurrentChunk + 1 = cs
    · obtain ⟨h1, h2, h3⟩ := processLine_full_proj cs lookup st l hfull
      rw [ih (processLine cs (okApi lookup) st l) (by rw [h1, h2]; rfl)
        (by rw [h1]; exact hc)]
      rw [h1, h3, List.nil_append, List.append_assoc]
      congr 1
      have hp2 : (st.tweetIdList ++ [l]).length = cs := by
        simp [List.length_append]
        omega
      have hassoc : st.tweetIdList ++ l :: ls = (st.tweetIdList ++ [l]) ++ ls := by simp
      rw [hassoc,
        specChunks_cons_eq cs hc ((st.tweetIdList ++ [l]) ++ ls) (by simp),
        List.take_left' hp2, List.drop_left' hp2]
      rfl
    · rw [processLine_notfull cs (okApi lookup) st l hfull]
      rw [ih _ (by simp [List.length_append]; omega) (by simp [List.length_append]; omega)]
      simp [List.append_assoc]

/-- Claim C9: in an error-free run, the driver submits exactly the
consecutive chunks of the input, ceil(N/C) of them, each of the configured
size except a possibly smaller final chunk, one fetch per chunk. -/
theorem c9_chunking (cs : Nat) (lookup : List String → List Tweet)
    (lines : List String) (hcs1 : 1 ≤ cs) (_hcs2 : cs ≤ 100) :
    (fullRun cs (okApi lookup) none false lines).chunksSubmitted
      = specChunks cs lines ∧
    (specChunks cs lines).flatten = lines ∧
    (specChunks cs lines).length = (lines.length + cs - 1) / cs ∧
    (∀ ch ∈ (specChunks cs lines).dropLast, ch.length = cs) ∧
    (∀ ch ∈ specChunks cs lines, ch.length ≤ cs ∧ ch ≠ []) := by
  refine ⟨?_, specChunks_join cs hcs1 lines,
    specChunks_length_aux cs hcs1 lines.length lines le_rfl,
    specChunks_dropLast_aux cs hcs1 lines.length lines le_rfl,
    specChunks_mem_aux cs hcs1 lines.length lines le_rfl⟩
  have hred : (fullRun cs (okApi lookup) none false lines).chunksSubmitted
      = (finishRun (okApi lookup)
          (runLoop cs (okApi lookup) lines (initState true "[\n"))).chunksSubmitted := rfl
  rw [hred, chunks_invariant cs lookup hcs1 lines (initState true "[\n") rfl hcs1]
  simp [initState]

/-- Witness for C9 at a concrete input: five ids, chunk size 2. -/
theorem c9_chunking_witness :
    ((1 ≤ 2 ∧ 2 ≤ 100) ∧
      (fullRun 2 (okApi lookupNone) none false ["1", "2", "3", "4", "5"]).chunksSubmitted
        = specChunks 2 ["1", "2", "3", "4", "5"]) ∧
    (specChunks 2 ["1", "2", "3", "4", "5"]).flatten = ["1", "2", "3", "4", "5"] ∧
    (specChunks 2 ["1", "2", "3", "4", "5"]).length
      = ((["1", "2", "3", "4", "5"] : List String).length + 2 - 1) / 2 ∧
    (∀ ch ∈ (specChunks 2 ["1", "2", "3", "4", "5"]).dropLast, ch.length = 2) ∧
    (∀ ch ∈ specChunks 2 ["1", "2", "3", "4", "5"], ch.length ≤ 2 ∧ ch ≠ []) := by
  have h := c9_chunking 2 lookupNone ["1", "2", "3", "4", "5"] (by decide) (by decide)
  exact ⟨⟨⟨by decide, by decide⟩, h.1⟩, h.2.1, h.2.2.1, h.2.2.2.1, h.2.2.2.2⟩


/-- Evaluation of claim C3 at the failing input: a fresh run, chunk size 2,
both ids returned.  The two records are written back to back with no
comma-newline between them, so the output text is not the claimed
comma-separated array shape. -/
theorem c3_output_shape_eval :
    (fullRun 2 apiTwoTweets none false ["1", "2"]).outWrites
      = ["[\n", "recordA", "recordB", "\n]\n"] ∧
    ",\n" ∉ (fullRun 2 apiTwoTweets none false ["1", "2"]).outWrites ∧
    outputText (fullRun 2 apiTwoTweets none false ["1", "2"])
      = "[\nrecordArecordB\n]\n" := by
  refine ⟨by decide, by decide, by decide⟩

/-- Evaluation of claim C4 at the failing input: chunk size 1, ids 1 and 2,
the lookup errors on chunk [1].  The failed id is not dropped: because the
resets sit inside the try block, id 1 stays in the accumulator, is carried
into the final submission together with id 2, and even produces a missing
record there. -/
theorem c4_error_chunk_not_dropped :
    (fullRun 1 apiFailOn1 none false ["1", "2"]).chunksSubmitted
      = [["1"], ["1", "2"]] ∧
    (fullRun 1 apiFailOn1 none false ["1", "2"]).missingWrites
      = ["Missing tweet for id: 1\n", "Missing tweet for id: 2\n"] := by
  refine ⟨by decide, by decide⟩

/-- Evaluation of claim C5 at the failing input: chunk size 2, ids 1..3, the
lookup errors on the first full chunk.  The final submission has 3 ids,
exceeding the configured maximum of 2 — while the configured maximum itself
is always clamped into [1, 100]. -/
theorem c5_chunk_size_exceeded :
    (fullRun 2 apiFailOnPairs none false ["1", "2", "3"]).chunksSubmitted.map List.length
      = [2, 3] ∧
    (∃ ch ∈ (fullRun 2 apiFailOnPairs none false ["1", "2", "3"]).chunksSubmitted,
      2 < ch.length) ∧
    (∀ n : Int, 1 ≤ clampChunkSize n ∧ clampChunkSize n ≤ 100) := by
  refine ⟨by decide, by decide, ?_⟩
  intro n
  unfold clampChunkSize
  split <;> omega

end Rehydrate
